import Mathlib

/-!
Shallow embedding of the sales dashboard (src/dashboard.py).

The embedding models cell values of the spreadsheet as a tagged union
(`Val`), Python floats as `PFloat` (a rational or the special NaN value;
rationals stand for the decimal values floats print as), and the pandas
dataframe as a list of typed rows.  Text processing works on `List Char`;
only ASCII digits, case and whitespace are modelled, which covers every
value the claims exercise.
-/

namespace Dashboard

/-- Model of a Python float: either NaN or an ordinary (rational) value. -/
inductive PFloat where
  | nan : PFloat
  | q : ℚ → PFloat
deriving DecidableEq, Repr

/-- Model of a raw spreadsheet cell as pandas hands it to a converter:
Python `None` (missing), a number (int or float), or a string. -/
inductive Val where
  | null : Val
  | num : PFloat → Val
  | str : String → Val
deriving DecidableEq, Repr

/-- Python whitespace characters removed by `str.strip()` (ASCII fragment). -/
def isPySpace (c : Char) : Bool :=
  c = ' ' ∨ c = '\t' ∨ c = '\n' ∨ c = '\r' ∨ c = '\x0b' ∨ c = '\x0c'

/-- `str.strip()`: drop leading and trailing whitespace. -/
def pyStrip (l : List Char) : List Char :=
  ((l.dropWhile isPySpace).reverse.dropWhile isPySpace).reverse

/-- The regex step of the parser: keep only digits, comma, period and minus
(the substitution in line 44 of dashboard.py deletes every other character). -/
def stripSub (l : List Char) : List Char :=
  l.filter (fun c => c.isDigit ∨ c = ',' ∨ c = '.' ∨ c = '-')

/-- Numeric value of a list of decimal digit characters (most significant first). -/
def digitsVal (l : List Char) : ℕ :=
  l.foldl (fun n c => n * 10 + (c.toNat - 48)) 0

/-- Python `s.rfind(c)`: index of the last occurrence of `c`, `-1` when absent. -/
def rfindZ (c : Char) (l : List Char) : ℤ :=
  match l.reverse.findIdx? (· = c) with
  | some i => (l.length : ℤ) - 1 - (i : ℤ)
  | Option.none => -1

/-- Separator disambiguation of `parse_ptbr` (lines 50-61 of dashboard.py):
with both separators present the one with the larger `rfind` index is kept
as decimal separator and the other is deleted; a lone comma becomes a
period; otherwise the text is unchanged. -/
def normalizeSeps (t : List Char) : List Char :=
  if ',' ∈ t ∧ '.' ∈ t then
    if rfindZ ',' t > rfindZ '.' t then
      (t.filter (· ≠ '.')).map (fun c => if c = ',' then '.' else c)
    else
      t.filter (· ≠ ',')
  else if ',' ∈ t then
    t.map (fun c => if c = ',' then '.' else c)
  else t

/-- Model of Python `float(s)` on the character set the parser can produce
(digits, one optional leading sign, at most one period).  The full builtin
also accepts exponents, `inf`/`nan` and underscores, but the normalisation
step only ever passes strings over digits, `.` and `-` to it. -/
def pyFloatParse (l : List Char) : Option ℚ :=
  let sgn : ℚ := match l with
    | '-' :: _ => -1
    | _ => 1
  let t : List Char := match l with
    | '-' :: rest => rest
    | '+' :: rest => rest
    | _ => l
  let a := t.takeWhile (· ≠ '.')
  match t.dropWhile (· ≠ '.') with
  | [] =>
    if a ≠ [] ∧ a.all Char.isDigit then some (sgn * digitsVal a) else Option.none
  | '.' :: b =>
    if (a ≠ [] ∨ b ≠ []) ∧ a.all Char.isDigit ∧ b.all Char.isDigit ∧ '.' ∉ b then
      some (sgn * ((digitsVal a : ℚ) + (digitsVal b : ℚ) / 10 ^ b.length))
    else Option.none
  | _ => Option.none

/-- `parse_ptbr` (lines 29-66 of dashboard.py): `None` fails; numbers pass
through unchanged (`float(x)`, so NaN stays NaN); text is stripped, reduced
to digits and separators, separator-normalised and float-parsed, with any
failure returning the distinguished `Option.none` (the Python `None`). -/
def parse_ptbr (x : Val) : Option PFloat :=
  match x with
  | Val.null => Option.none
  | Val.num p => some p
  | Val.str s0 =>
    if pyStrip s0.toList = [] then Option.none
    else if stripSub (pyStrip s0.toList) = [] then Option.none
    else (pyFloatParse (normalizeSeps (stripSub (pyStrip s0.toList)))).map PFloat.q

/-! ### Canonical product code: `df.get('codigo', '').astype(str)` -/

/-- Smallest exponent (up to 40) making `q * 10 ^ k` integral, when one exists. -/
def decExp (q : ℚ) : Option ℕ :=
  (List.range 41).find? (fun k => (q * 10 ^ k).den = 1)

/-- Decimal rendering of a rational: the exact finite decimal expansion when
one exists.  This models what Python prints for the numbers the spreadsheet
holds: ints print without a point, and a float prints as the decimal value
it stands for (which, under the rational model of floats, is exactly the
finite expansion). -/
def decimalRepr (v : ℚ) : String :=
  if v.den = 1 then toString v.num
  else
    match decExp v with
    | some k =>
      let m := v.num.natAbs * 10 ^ k / v.den
      let intPart := toString (m / 10 ^ k)
      let fracRaw := toString (m % 10 ^ k)
      let frac := String.mk (List.replicate (k - fracRaw.length) '0') ++ fracRaw
      (if v < 0 then "-" else "") ++ intPart ++ "." ++ frac
    | Option.none => toString v.num ++ "/" ++ toString v.den

/-- Elementwise model of `.astype(str)` (line 93 of dashboard.py): Python
`str()` of the cell; a missing cell (pandas NaN) prints as `"nan"`. -/
def pyStr (x : Val) : String :=
  match x with
  | Val.null => "nan"
  | Val.num PFloat.nan => "nan"
  | Val.num (PFloat.q v) => decimalRepr v
  | Val.str s => s

/-! ### Dates: `pd.to_datetime(..., dayfirst=True, errors='coerce')` -/

/-- A calendar date. -/
structure Date where
  day : ℕ
  month : ℕ
  year : ℕ
deriving DecidableEq, Repr

/-- Gregorian leap-year test. -/
def isLeap (y : ℕ) : Bool := (y % 4 = 0 ∧ y % 100 ≠ 0) ∨ y % 400 = 0

/-- Days in a month. -/
def daysInMonth (y m : ℕ) : ℕ :=
  if m = 2 then (if isLeap y then 29 else 28)
  else if m = 4 ∨ m = 6 ∨ m = 9 ∨ m = 11 then 30
  else 31

/-- Model of the library call `pd.to_datetime(s, dayfirst=True, errors='coerce')`
on slash-separated date text: day first, then month, then year; any failure
becomes `Option.none` (the NaT that `errors='coerce'` produces). -/
def parseDateDayFirst (s : String) : Option Date :=
  match s.splitOn "/" with
  | [ds, ms, ys] =>
    if ds ≠ "" ∧ ms ≠ "" ∧ ys ≠ "" ∧ ds.toList.all Char.isDigit ∧
        ms.toList.all Char.isDigit ∧ ys.toList.all Char.isDigit then
      let d := digitsVal ds.toList
      let m := digitsVal ms.toList
      let y := digitsVal ys.toList
      if 1 ≤ m ∧ m ≤ 12 ∧ 1 ≤ d ∧ d ≤ daysInMonth y m then some ⟨d, m, y⟩
      else Option.none
    else Option.none
  | _ => Option.none

/-- Calendar order on dates (year, then month, then day). -/
def dateLe (a b : Date) : Bool :=
  a.year < b.year ∨ (a.year = b.year ∧
    (a.month < b.month ∨ (a.month = b.month ∧ a.day ≤ b.day)))

/-- Strict calendar order: `a > b` of the source is `dateGt a b`. -/
def dateGt (a b : Date) : Bool := !(dateLe a b)

/-! ### Record loader: `carregar_dados` (lines 70-94 of dashboard.py) -/

/-- One raw spreadsheet row as pandas delivers it (after the converters of
`read_excel` are declared; the converter itself is applied in `mkRecord`). -/
structure RawRow where
  pedido : Val
  emissao : String
  cliente : Option String
  codigo : Val
  produto : String
  quantidade : Val
  vlr_unitario : Val
  vlr_final : Val
  vlr_total_produto : Val
deriving DecidableEq, Repr

/-- One loaded record after conversion, date parsing, zero-filling and
code canonicalisation. -/
structure Record where
  pedido : Val
  emissao : Date
  cliente : Option String
  codigo : String
  produto : String
  quantidade : ℚ
  vlr_unitario : ℚ
  vlr_final : ℚ
  vlr_total_produto : ℚ
deriving DecidableEq, Repr

/-- The `fillna(0.0)` step (lines 89-91): a parse failure (`None`, stored by
pandas as NaN) and a genuine NaN both become `0`. -/
def fillZero (o : Option PFloat) : ℚ :=
  match o with
  | some (PFloat.q v) => v
  | _ => 0

/-- Build the loaded record of a row whose date parsed: numeric columns go
through `parse_ptbr` then `fillna(0.0)`; `codigo` through `.astype(str)`. -/
def mkRecord (w : RawRow) (d : Date) : Record where
  pedido := w.pedido
  emissao := d
  cliente := w.cliente
  codigo := pyStr w.codigo
  produto := w.produto
  quantidade := fillZero (parse_ptbr w.quantidade)
  vlr_unitario := fillZero (parse_ptbr w.vlr_unitario)
  vlr_final := fillZero (parse_ptbr w.vlr_final)
  vlr_total_produto := fillZero (parse_ptbr w.vlr_total_produto)

/-- `carregar_dados`: convert every row, coerce dates with
`errors='coerce'` and drop the rows whose date became NaT
(`dropna(subset=['emissao'])`).  Row order is preserved. -/
def carregar_dados (rows : List RawRow) : List Record :=
  rows.filterMap (fun w => (parseDateDayFirst w.emissao).map (mkRecord w))

/-! ### Filter engine: the `df_filtrado` block (lines 149-159) -/

/-- Filter criteria of one query: an optional inclusive date range (absent
when the `todo_periodo` box is ticked) and an optional exact product code
(absent when the selection is the all-codes entry). -/
structure FilterCriteria where
  dateRange : Option (Date × Date)
  codigo : Option String

/-- The one filter-level error: an inverted date range. -/
inductive FilterError where
  | invalidRange : FilterError
deriving DecidableEq, Repr

/-- The product-code filter (lines 158-159): exact equality on the
canonical `codigo` string. -/
def applyCodigo (sel : Option String) (df : List Record) : List Record :=
  match sel with
  | Option.none => df
  | some s => df.filter (fun r => r.codigo = s)

/-- The filter block: with a date range supplied, an inverted range stops
the query (`st.error` plus `st.stop`, modelled as the error result) and
otherwise rows are kept by `between(..., inclusive='both')`; the code
filter runs after. -/
def df_filtrado (df : List Record) (c : FilterCriteria) :
    Except FilterError (List Record) :=
  match c.dateRange with
  | Option.none => Except.ok (applyCodigo c.codigo df)
  | some (dIni, dFin) =>
    if dateGt dIni dFin then Except.error FilterError.invalidRange
    else Except.ok (applyCodigo c.codigo
      (df.filter (fun r => dateLe dIni r.emissao ∧ dateLe r.emissao dFin)))

/-! ### Aggregator (lines 166-168) -/

/-- Is the value the pandas missing marker (None or NaN)? -/
def isNa (v : Val) : Bool :=
  match v with
  | Val.null => true
  | Val.num PFloat.nan => true
  | _ => false

/-- `df_filtrado['vlr_total_produto'].sum()`. -/
def total_vendas (df : List Record) : ℚ :=
  df.foldl (fun a r => a + r.vlr_total_produto) 0

/-- `df_filtrado['pedido'].nunique()`: the number of distinct non-missing
order identifiers. -/
def num_pedidos (df : List Record) : ℕ :=
  (((df.map (fun r => r.pedido)).filter (fun v => !(isNa v))).dedup).length

/-! ### Customer search: `compras_cliente` (lines 203-204) -/

/-- Lower-cased character list of a string (the ASCII fragment of Python
`str.lower()` that `case=False` applies to both sides). -/
def lcChars (s : String) : List Char := s.toList.map Char.toLower

/-- `df['cliente'].str.contains(q, case=False, na=False, regex=False)`:
plain substring containment after lowering both sides; a missing customer
cell never matches (`na=False`). -/
def clienteContains (cliente : Option String) (q : String) : Bool :=
  match cliente with
  | Option.none => false
  | some c => decide (lcChars q <:+: lcChars c)

/-- The quick customer search over the full loaded set. -/
def compras_cliente (df : List Record) (q : String) : List Record :=
  df.filter (fun r => clienteContains r.cliente q)

/-! ### Definitions taken from the words of the specification -/

/-- From the words of the spec: rounding to 2 decimal places (monetary
precision), used to state the derived line-total contract. -/
def round2Spec (q : ℚ) : ℚ := (round (q * 100) : ℚ) / 100

/-- From the words of the spec: with both separators present, the one that
occurs later in the string is the decimal separator.  The later separator
is the first separator of the reversed text. -/
def lastSepIsComma (t : List Char) : Bool :=
  t.reverse.find? (fun c => c = ',' ∨ c = '.') = some ','

/-! ### Concrete rows used to witness the theorems -/

/-- A row whose source total column disagrees with quantity times price. -/
def c1Row : RawRow where
  pedido := Val.num (PFloat.q 1)
  emissao := "01/03/2024"
  cliente := some "Ana Silva"
  codigo := Val.num (PFloat.q 100)
  produto := "Moldura A"
  quantidade := Val.num (PFloat.q 2)
  vlr_unitario := Val.num (PFloat.q 10)
  vlr_final := Val.num (PFloat.q 20)
  vlr_total_produto := Val.num (PFloat.q 999)

/-- A row with a parseable day-first date. -/
def c4Row : RawRow where
  pedido := Val.num (PFloat.q 2)
  emissao := "13/01/2024"
  cliente := some "Beto"
  codigo := Val.str "200"
  produto := "Moldura B"
  quantidade := Val.str "1"
  vlr_unitario := Val.str "5,00"
  vlr_final := Val.str "5,00"
  vlr_total_produto := Val.str "5,00"

/-- A row with an unparseable numeric cell but a good date. -/
def c5Row : RawRow where
  pedido := Val.num (PFloat.q 3)
  emissao := "02/03/2024"
  cliente := some "Carla"
  codigo := Val.str "300"
  produto := "Moldura C"
  quantidade := Val.str "???"
  vlr_unitario := Val.str "R$"
  vlr_final := Val.null
  vlr_total_produto := Val.str "-"

/-- A row whose product code is stored as the number 123. -/
def c8RowNum : RawRow where
  pedido := Val.num (PFloat.q 4)
  emissao := "03/03/2024"
  cliente := some "Dina"
  codigo := Val.num (PFloat.q 123)
  produto := "Moldura D"
  quantidade := Val.str "1"
  vlr_unitario := Val.str "1"
  vlr_final := Val.str "1"
  vlr_total_produto := Val.str "1"

/-- A row whose quantity cell is the float NaN. -/
def c10Row : RawRow where
  pedido := Val.num (PFloat.q 5)
  emissao := "04/03/2024"
  cliente := some "Edu"
  codigo := Val.str "500"
  produto := "Moldura E"
  quantidade := Val.num PFloat.nan
  vlr_unitario := Val.str "1"
  vlr_final := Val.str "1"
  vlr_total_produto := Val.str "1"

/-- A one-record dataset used by the filter and aggregator witnesses. -/
def wRecord : Record where
  pedido := Val.num (PFloat.q 7)
  emissao := ⟨5, 3, 2024⟩
  cliente := some "Fátima Gomes"
  codigo := "700"
  produto := "Moldura F"
  quantidade := 1
  vlr_unitario := 7
  vlr_final := 7
  vlr_total_produto := 7

/-! ### Helper lemmas -/

theorem mem_of_ne_head {x a : Char} {xs : List Char} (h : a ∈ x :: xs)
    (hne : x ≠ a) : a ∈ xs := by
  cases h with
  | head => exact absurd rfl hne
  | tail _ h => exact h

/-- On a list holding two distinct characters, the first of the two to be
found is `a` exactly when the first index of `a` is before that of `b`. -/
theorem find_two_eq_left_iff (a b : Char) (hab : a ≠ b) :
    ∀ (l : List Char), a ∈ l → b ∈ l →
      (l.find? (fun c => c = a ∨ c = b) = some a ↔
        l.findIdx (fun c => c = a) < l.findIdx (fun c => c = b)) := by
  intro l
  induction l with
  | nil => intro ha _; exact absurd ha (List.not_mem_nil a)
  | cons x xs ih =>
    intro ha hb
    by_cases hxa : x = a
    · subst hxa
      have hfind : List.find? (fun c => c = x ∨ c = b) (x :: xs) = some x := by
        simp [List.find?]
      have hA : List.findIdx (fun c => c = x) (x :: xs) = 0 := by
        simp [List.findIdx_cons]
      have hB : List.findIdx (fun c => c = b) (x :: xs) =
          List.findIdx (fun c => c = b) xs + 1 := by
        simp [List.findIdx_cons, hab]
      simp [hfind, hA, hB]
    · by_cases hxb : x = b
      · subst hxb
        have hfind : List.find? (fun c => c = a ∨ c = x) (x :: xs) = some x := by
          simp [List.find?, hxa]
        have hA : List.findIdx (fun c => c = a) (x :: xs) =
            List.findIdx (fun c => c = a) xs + 1 := by
          simp [List.findIdx_cons, hxa]
        have hB : List.findIdx (fun c => c = x) (x :: xs) = 0 := by
          simp [List.findIdx_cons]
        simp [hfind, hA, hB, hxa]
      · have hfind : List.find? (fun c => c = a ∨ c = b) (x :: xs) =
            List.find? (fun c => c = a ∨ c = b) xs := by
          simp [List.find?, hxa, hxb]
        have ha2 : a ∈ xs := mem_of_ne_head ha hxa
        have hb2 : b ∈ xs := mem_of_ne_head hb hxb
        have hA : List.findIdx (fun c => c = a) (x :: xs) =
            List.findIdx (fun c => c = a) xs + 1 := by
          simp [List.findIdx_cons, hxa]
        have hB : List.findIdx (fun c => c = b) (x :: xs) =
            List.findIdx (fun c => c = b) xs + 1 := by
          simp [List.findIdx_cons, hxb]
        rw [hfind, hA, hB, ih ha2 hb2]
        omega

theorem findIdx?_of_mem {p : Char → Bool} {l : List Char} {x : Char}
    (hx : x ∈ l) (hp : p x = true) :
    l.findIdx? p = some (l.findIdx p) := by
  rw [List.findIdx?_eq_some_iff_findIdx_eq]
  exact ⟨List.findIdx_lt_length_of_exists ⟨x, hx, hp⟩, rfl⟩

/-- The comparison of `rfind` indices in the source is the statement of the
spec: the comma wins exactly when it is the later separator occurrence. -/
theorem rfind_lt_iff_lastSepIsComma (t : List Char)
    (hc : ',' ∈ t) (hd : '.' ∈ t) :
    (rfindZ '.' t < rfindZ ',' t) ↔ lastSepIsComma t = true := by
  have hcr : ',' ∈ t.reverse := List.mem_reverse.mpr hc
  have hdr : '.' ∈ t.reverse := List.mem_reverse.mpr hd
  have h1 := findIdx?_of_mem (p := fun c => c = ',') hcr (by simp)
  have h2 := findIdx?_of_mem (p := fun c => c = '.') hdr (by simp)
  have l1 : t.reverse.findIdx (fun c => c = ',') < t.reverse.length :=
    List.findIdx_lt_length_of_exists ⟨',', hcr, by simp⟩
  have l2 : t.reverse.findIdx (fun c => c = '.') < t.reverse.length :=
    List.findIdx_lt_length_of_exists ⟨'.', hdr, by simp⟩
  have hiff := find_two_eq_left_iff ',' '.' (by decide) t.reverse hcr hdr
  rw [List.length_reverse] at l1 l2
  unfold rfindZ
  simp only [h1, h2]
  unfold lastSepIsComma
  rw [decide_eq_true_eq, hiff]
  omega

/-- With both separators present, the source's `rfind` comparison realises
the spec's later-separator rule. -/
theorem normalizeSeps_spec (t : List Char) (hc : ',' ∈ t) (hd : '.' ∈ t) :
    normalizeSeps t =
      if lastSepIsComma t then
        (t.filter (fun c => c ≠ '.')).map (fun c => if c = ',' then '.' else c)
      else t.filter (fun c => c ≠ ',') := by
  unfold normalizeSeps
  rw [if_pos ⟨hc, hd⟩]
  by_cases h : lastSepIsComma t
  · rw [if_pos h, if_pos ((rfind_lt_iff_lastSepIsComma t hc hd).mpr h)]
  · rw [if_neg h, if_neg (fun hlt => h ((rfind_lt_iff_lastSepIsComma t hc hd).mp hlt))]

/-! ### The claims -/

/-- C2: when the text holds both a comma and a period after stripping, the
separator occurring later in the string is kept as the decimal separator
and the other is removed; a lone comma is the decimal separator.  The three
contract values parse as stated: 1.234,56 and 1,234.56 both give 1234.56,
and 1234,5 gives 1234.5. -/
theorem claim_c2 :
    parse_ptbr (Val.str "1.234,56") = some (PFloat.q 1234.56)
    ∧ parse_ptbr (Val.str "1,234.56") = some (PFloat.q 1234.56)
    ∧ parse_ptbr (Val.str "1234,5") = some (PFloat.q 1234.5)
    ∧ (∀ t : List Char, ',' ∈ t → '.' ∈ t →
        normalizeSeps t =
          if lastSepIsComma t then
            (t.filter (fun c => c ≠ '.')).map (fun c => if c = ',' then '.' else c)
          else t.filter (fun c => c ≠ ','))
    ∧ (∀ t : List Char, ',' ∈ t → ¬ ('.' ∈ t) →
        normalizeSeps t = t.map (fun c => if c = ',' then '.' else c)) := by
  refine ⟨by with_unfolding_all rfl, by with_unfolding_all rfl,
    by with_unfolding_all rfl, normalizeSeps_spec, ?_⟩
  intro t hc hd
  unfold normalizeSeps
  rw [if_neg (fun h => hd h.2), if_pos hc]

/-- Witness for C2 at the concrete text "1.234,56". -/
theorem claim_c2_witness :
    normalizeSeps "1.234,56".toList =
      if lastSepIsComma "1.234,56".toList then
        ("1.234,56".toList.filter (fun c => c ≠ '.')).map
          (fun c => if c = ',' then '.' else c)
      else "1.234,56".toList.filter (fun c => c ≠ ',') :=
  claim_c2.2.2.2.1 "1.234,56".toList (by decide) (by decide)

/-- C3: null input, input stripping to nothing (currency symbols or letters
only), a bare minus sign, and text whose normalised form fails the float
parse (such as several decimal points) all return the distinguished failure
`Option.none`; the parser is a total function and never substitutes zero
for a failure. -/
theorem claim_c3 : ∀ s : String,
    parse_ptbr Val.null = Option.none
    ∧ (pyStrip s.toList = [] → parse_ptbr (Val.str s) = Option.none)
    ∧ (stripSub (pyStrip s.toList) = [] → parse_ptbr (Val.str s) = Option.none)
    ∧ (pyFloatParse (normalizeSeps (stripSub (pyStrip s.toList))) = Option.none →
        parse_ptbr (Val.str s) = Option.none)
    ∧ parse_ptbr (Val.str "R$ %") = Option.none
    ∧ parse_ptbr (Val.str "-") = Option.none
    ∧ parse_ptbr (Val.str "12.34.56") = Option.none := by
  intro s
  refine ⟨rfl, ?_, ?_, ?_, by with_unfolding_all rfl, by with_unfolding_all rfl,
    by with_unfolding_all rfl⟩
  · intro h; simp only [String.toList] at h; simp [parse_ptbr, h]
  · intro h; simp only [String.toList] at h; simp [parse_ptbr, h]
  · intro h; simp only [String.toList] at h; simp [parse_ptbr, h]

/-- Witness for C3 at the concrete text "R$ %", which strips to nothing. -/
theorem claim_c3_witness :
    parse_ptbr (Val.str "R$ %") = Option.none :=
  (claim_c3 "R$ %").2.2.1 (by with_unfolding_all rfl)

/-- C10: a NaN numeric cell takes the numeric-identity branch of the parser
and comes back as a successful NaN, not as the failure `Option.none`; it is
the fill step of the loader that later turns it into zero. -/
theorem claim_c10 :
    parse_ptbr (Val.num PFloat.nan) = some PFloat.nan
    ∧ parse_ptbr (Val.num PFloat.nan) ≠ Option.none
    ∧ fillZero (parse_ptbr (Val.num PFloat.nan)) = 0
    ∧ (∀ (w : RawRow) (d : Date), w.quantidade = Val.num PFloat.nan →
        (mkRecord w d).quantidade = 0) := by
  refine ⟨rfl, by simp [parse_ptbr], rfl, ?_⟩
  intro w d h
  simp [mkRecord, h, parse_ptbr, fillZero]

/-- Witness for C10 at a concrete row whose quantity is NaN. -/
theorem claim_c10_witness :
    (mkRecord c10Row ⟨4, 3, 2024⟩).quantidade = 0 :=
  claim_c10.2.2.2 c10Row ⟨4, 3, 2024⟩ rfl

/-- C1 fails on the code: the loader keeps the source total column.  At a
row with quantity 2, unit price 10 and a source total of 999, the loaded
record exposes 999 while the claimed derivation gives 20. -/
theorem claim_c1_counterexample :
    (carregar_dados [c1Row]).map
        (fun r => (r.quantidade, r.vlr_unitario, r.vlr_total_produto)) =
      [((2 : ℚ), (10 : ℚ), (999 : ℚ))]
    ∧ round2Spec (2 * 10) = 20
    ∧ ¬ ((999 : ℚ) = round2Spec (2 * 10)) := by
  refine ⟨by with_unfolding_all rfl, ?_, ?_⟩
  · unfold round2Spec
    norm_num
  · unfold round2Spec
    norm_num

/-- C1 amended: the line total of every loaded record is the parsed source
total column (zero when its parse fails); it is not recomputed from
quantity times unit price. -/
theorem claim_c1 : ∀ (rows : List RawRow) (r : Record),
    r ∈ carregar_dados rows →
    ∃ w, w ∈ rows ∧ ∃ d, parseDateDayFirst w.emissao = some d ∧
      r = mkRecord w d ∧
      r.vlr_total_produto = fillZero (parse_ptbr w.vlr_total_produto) := by
  intro rows r hr
  rw [carregar_dados, List.mem_filterMap] at hr
  obtain ⟨w, hw, hf⟩ := hr
  rw [Option.map_eq_some'] at hf
  obtain ⟨d, hd, hrec⟩ := hf
  exact ⟨w, hw, d, hd, hrec.symm, by rw [← hrec]; rfl⟩

/-- Witness for C1 (amended) at the concrete row with the inconsistent
source total. -/
theorem claim_c1_witness :
    ∃ w, w ∈ [c1Row] ∧ ∃ d, parseDateDayFirst w.emissao = some d ∧
      mkRecord c1Row ⟨1, 3, 2024⟩ = mkRecord w d ∧
      (mkRecord c1Row ⟨1, 3, 2024⟩).vlr_total_produto =
        fillZero (parse_ptbr w.vlr_total_produto) :=
  claim_c1 [c1Row] (mkRecord c1Row ⟨1, 3, 2024⟩) (by
    have h : carregar_dados [c1Row] = [mkRecord c1Row ⟨1, 3, 2024⟩] := by
      with_unfolding_all rfl
    rw [h]
    exact List.mem_singleton.mpr rfl)

/-- C4: a record is loaded exactly when its row's date parses; dates are
read day-first ("13/01/2024" is January 13th), and a row whose date text
fails to parse is absent from the result, not flagged. -/
theorem claim_c4 : ∀ (rows : List RawRow) (r : Record),
    (r ∈ carregar_dados rows ↔
      ∃ w, w ∈ rows ∧ ∃ d, parseDateDayFirst w.emissao = some d ∧
        r = mkRecord w d)
    ∧ parseDateDayFirst "01/03/2024" = some ⟨1, 3, 2024⟩
    ∧ parseDateDayFirst "13/01/2024" = some ⟨13, 1, 2024⟩
    ∧ parseDateDayFirst "invalid" = Option.none := by
  intro rows r
  refine ⟨?_, by with_unfolding_all rfl, by with_unfolding_all rfl,
    by with_unfolding_all rfl⟩
  rw [carregar_dados, List.mem_filterMap]
  constructor
  · rintro ⟨w, hw, hf⟩
    rw [Option.map_eq_some'] at hf
    obtain ⟨d, hd, hrec⟩ := hf
    exact ⟨w, hw, d, hd, hrec.symm⟩
  · rintro ⟨w, hw, d, hd, hrec⟩
    exact ⟨w, hw, by rw [hd]; exact congrArg some hrec.symm⟩

/-- Witness for C4: the day-first row is loaded. -/
theorem claim_c4_witness :
    mkRecord c4Row ⟨13, 1, 2024⟩ ∈ carregar_dados [c4Row] :=
  ((claim_c4 [c4Row] (mkRecord c4Row ⟨13, 1, 2024⟩)).1).mpr
    ⟨c4Row, List.mem_singleton.mpr rfl, ⟨13, 1, 2024⟩,
      by with_unfolding_all rfl, rfl⟩

/-- C5: a numeric cell whose parse fails contributes zero to the loaded
record; the row itself is still loaded whenever its date parses, so a cell
failure never drops the row or aborts the load. -/
theorem claim_c5 : ∀ (rows : List RawRow) (w : RawRow) (d : Date),
    w ∈ rows → parseDateDayFirst w.emissao = some d →
    mkRecord w d ∈ carregar_dados rows
    ∧ (parse_ptbr w.quantidade = Option.none → (mkRecord w d).quantidade = 0)
    ∧ (parse_ptbr w.vlr_unitario = Option.none →
        (mkRecord w d).vlr_unitario = 0)
    ∧ (parse_ptbr w.vlr_final = Option.none → (mkRecord w d).vlr_final = 0)
    ∧ (parse_ptbr w.vlr_total_produto = Option.none →
        (mkRecord w d).vlr_total_produto = 0) := by
  intro rows w d hw hd
  constructor
  · rw [carregar_dados, List.mem_filterMap]
    exact ⟨w, hw, by rw [hd]; rfl⟩
  refine ⟨?_, ?_, ?_, ?_⟩ <;> (intro h; simp [mkRecord, fillZero, h])

/-- Witness for C5: a row with four failing numeric cells is loaded, with
its quantity zero. -/
theorem claim_c5_witness :
    mkRecord c5Row ⟨2, 3, 2024⟩ ∈ carregar_dados [c5Row]
    ∧ (mkRecord c5Row ⟨2, 3, 2024⟩).quantidade = 0 := by
  have h := claim_c5 [c5Row] c5Row ⟨2, 3, 2024⟩ (List.mem_singleton.mpr rfl)
    (by with_unfolding_all rfl)
  exact ⟨h.1, h.2.1 (by with_unfolding_all rfl)⟩

/-- C6: a supplied date range with `date_from > date_to` stops the query
with the invalid-range error; no `ok` result of any kind (empty or partial)
is returned. -/
theorem claim_c6 : ∀ (df : List Record) (dIni dFin : Date) (sel : Option String),
    dateGt dIni dFin = true →
    df_filtrado df ⟨some (dIni, dFin), sel⟩ =
      Except.error FilterError.invalidRange
    ∧ ∀ l : List Record,
        df_filtrado df ⟨some (dIni, dFin), sel⟩ ≠ Except.ok l := by
  intro df dIni dFin sel h
  constructor
  · simp [df_filtrado, h]
  · intro l
    simp [df_filtrado, h]

/-- Witness for C6 at a concrete inverted range. -/
theorem claim_c6_witness :
    df_filtrado [wRecord] ⟨some (⟨2, 1, 2024⟩, ⟨1, 1, 2024⟩), Option.none⟩ =
      Except.error FilterError.invalidRange :=
  (claim_c6 [wRecord] ⟨2, 1, 2024⟩ ⟨1, 1, 2024⟩ Option.none (by decide)).1

theorem foldl_add_eq (f : Record → ℚ) :
    ∀ (df : List Record) (a : ℚ),
      df.foldl (fun x r => x + f r) a = a + (df.map f).sum := by
  intro df
  induction df with
  | nil => intro a; simp
  | cons r rs ih => intro a; simp [ih, add_assoc]

/-- C7: the aggregate total is the sum of the line totals of exactly the
given records, and the order count is the number of distinct (non-missing)
order identifiers among them; both are zero on the empty sequence. -/
theorem claim_c7 : ∀ (df : List Record),
    total_vendas df = (df.map (fun r => r.vlr_total_produto)).sum
    ∧ num_pedidos df =
        ((df.map (fun r => r.pedido)).filter (fun v => !(isNa v))).toFinset.card
    ∧ total_vendas [] = 0
    ∧ num_pedidos [] = 0 := by
  intro df
  refine ⟨?_, ?_, rfl, rfl⟩
  · unfold total_vendas
    rw [foldl_add_eq]
    simp
  · unfold num_pedidos
    rw [List.card_toFinset]

/-- C8: an integer product code stored as a number and the same code stored
as text load to the same canonical string, on which the exact-match filter
compares; such a row is loaded like any other. -/
theorem claim_c8 : ∀ (z : ℤ) (rows : List RawRow) (w : RawRow) (d : Date),
    w ∈ rows → parseDateDayFirst w.emissao = some d →
    (w.codigo = Val.num (PFloat.q (z : ℚ)) →
      (mkRecord w d).codigo = toString z)
    ∧ (w.codigo = Val.str (toString z) → (mkRecord w d).codigo = toString z)
    ∧ mkRecord w d ∈ carregar_dados rows := by
  intro z rows w d hw hd
  refine ⟨?_, ?_, ?_⟩
  · intro h
    simp [mkRecord, pyStr, h, decimalRepr, Rat.den_intCast, Rat.num_intCast]
  · intro h
    simp [mkRecord, pyStr, h]
  · rw [carregar_dados, List.mem_filterMap]
    exact ⟨w, hw, by rw [hd]; rfl⟩

/-- Witness for C8: the numeric code 123 canonicalises to the string of
123. -/
theorem claim_c8_witness :
    (mkRecord c8RowNum ⟨3, 3, 2024⟩).codigo = toString (123 : ℤ) :=
  (claim_c8 123 [c8RowNum] c8RowNum ⟨3, 3, 2024⟩ (List.mem_singleton.mpr rfl)
    (by with_unfolding_all rfl)).1 (by with_unfolding_all rfl)

/-- C9: for a non-empty query, the customer search selects exactly the
records whose customer field holds the query as a case-insensitive
substring; a missing or empty customer field never matches. -/
theorem claim_c9 : ∀ (df : List Record) (q : String) (r : Record), q ≠ "" →
    (r ∈ compras_cliente df q ↔
      r ∈ df ∧ ∃ c, r.cliente = some c ∧ lcChars q <:+: lcChars c)
    ∧ (r.cliente = Option.none ∨ r.cliente = some "" →
        r ∉ compras_cliente df q) := by
  intro df q r hq
  have hmatch : ∀ cliente : Option String, clienteContains cliente q = true ↔
      ∃ c, cliente = some c ∧ lcChars q <:+: lcChars c := by
    intro cliente
    cases cliente with
    | none => simp [clienteContains]
    | some c => simp [clienteContains]
  constructor
  · rw [compras_cliente, List.mem_filter, hmatch r.cliente]
  · intro hc hmem
    rw [compras_cliente, List.mem_filter] at hmem
    obtain ⟨c, hcl, hinf⟩ := (hmatch r.cliente).mp hmem.2
    cases hc with
    | inl h => rw [h] at hcl; cases hcl
    | inr h =>
      rw [h] at hcl
      obtain rfl : "" = c := by injection hcl
      have hnil : lcChars q = [] := List.sublist_nil.mp hinf.sublist
      have hqnil : q.toList = [] := List.map_eq_nil_iff.mp hnil
      exact hq (String.ext hqnil)

/-- Witness for C9: the query matches a customer differing only in case. -/
theorem claim_c9_witness :
    wRecord ∈ compras_cliente [wRecord] "fátima" :=
  ((claim_c9 [wRecord] "fátima" wRecord (by decide)).1).mpr
    ⟨List.mem_singleton.mpr rfl, "Fátima Gomes", rfl, by decide⟩

end Dashboard
